import Mathlib

/-!
Verification development for the timeMCL repository.

Shallow embedding of the two source files:
  - tsExperiments/models/project_models/timeGrad/timeGradNetwork.py
    (class PersonnalizedTimeGrad: get_lagged_subsequences, unroll,
    unroll_encoder, loss, sampling_decoder, forward)
  - tsExperiments/Estimator/pytorchLightingEstimator.py
    (class PyTorchLightningEstimator: train_model)

Tensors are modelled shape-and-contents style: a record holding the declared
shape together with a total indexing function into ℚ.  Entries outside the
declared shape are junk and never constrained.  Python / torch slicing with
negative indices is modelled exactly (clamping semantics of `l[a:b]`), and
operations that raise in Python (failed `assert`, `ValueError`, tuple-unpacking
mismatches, `torch.cat` shape mismatches, `max([])`) are modelled by `Option`
with `none` for the raising computation.  External collaborators that the two
source files import (the RNN, the embedding table, the diffusion head, and the
scaler classes from the `data_and_transformation` module, none of which are
under src/) enter as parameters of an environment record; the spec treats them
as opaque capabilities.
-/

/-- A (batch, time) tensor of floats, e.g. `past_is_pad`. -/
structure Tensor2 where
  n : Nat
  t : Nat
  val : Nat → Nat → ℚ

/-- A (batch, time, channel) tensor of floats in NTC layout. -/
structure Tensor3 where
  n : Nat
  t : Nat
  c : Nat
  val : Nat → Nat → Nat → ℚ

/-- A 4-dimensional tensor, e.g. the (batch, subseq, target_dim, num_lags)
output of `get_lagged_subsequences`. -/
structure Tensor4 where
  d0 : Nat
  d1 : Nat
  d2 : Nat
  d3 : Nat
  val : Nat → Nat → Nat → Nat → ℚ

/-- A (batch, target_dim) tensor of integer indices
(`target_dimension_indicator`). -/
structure TensorI2 where
  n : Nat
  c : Nat
  val : Nat → Nat → Nat

/-- Placeholder tensor used as the `getD` default; never read within bounds. -/
def dummy3 : Tensor3 := ⟨0, 0, 0, fun _ _ _ => 0⟩

/-- Normalization of one Python slice bound `i` against a length `len`:
a negative bound counts from the end and clamps at 0, a non-negative bound
clamps at `len`. -/
def pyIdx (len : Nat) (i : Int) : Nat :=
  if i < 0 then (len + i).toNat else min i.toNat len

/-- Python slicing `x[:, a:b, ...]` along the time axis; `b = none` means the
bound is omitted (slice to the end).  Empty result when the normalized start
is at or past the normalized stop, exactly as in Python. -/
def tslice (x : Tensor3) (a : Int) (b : Option Int) : Tensor3 :=
  let start := pyIdx x.t a
  let stop := match b with | none => x.t | some j => pyIdx x.t j
  ⟨x.n, stop - start, x.c, fun bb j cc => x.val bb (start + j) cc⟩

/-- `x[:, -k:, ...]`, the last `k` steps along time (all of `x` when `k = 0`,
because Python `-0 == 0`). -/
def lastT (x : Tensor3) (k : Nat) : Tensor3 := tslice x (-(k : Int)) none

/-- `torch.cat((x, y), dim=1)`: concatenation along the time axis. -/
def catT (x y : Tensor3) : Tensor3 :=
  ⟨x.n, x.t + y.t, x.c, fun b t c => if t < x.t then x.val b t c else y.val b (t - x.t) c⟩

/-- `torch.cat((x, y), dim=-1)`: concatenation along the feature axis. -/
def catC (x y : Tensor3) : Tensor3 :=
  ⟨x.n, x.t, x.c + y.c, fun b t f => if f < x.c then x.val b t f else y.val b t (f - x.c)⟩

/-- `1 - past_is_pad.unsqueeze(-1)`: a (batch, time, 1) tensor. -/
def oneMinusPad (pad : Tensor2) : Tensor3 :=
  ⟨pad.n, pad.t, 1, fun b t _ => 1 - pad.val b t⟩

/-- `torch.min(x, y)` with broadcasting of a singleton last axis of `y`,
as used for `torch.min(past_observed_values, 1 - past_is_pad.unsqueeze(-1))`. -/
def tmin (x y : Tensor3) : Tensor3 :=
  ⟨x.n, x.t, x.c, fun b t c => min (x.val b t c) (y.val b t (if y.c = 1 then 0 else c))⟩

/-- Python `max` over a list of ints (the `[]` case raises in Python and is
guarded separately at every use site). -/
def listMax : List Int → Int
  | [] => 0
  | a :: l => l.foldl max a

/-- Embedding of `PersonnalizedTimeGrad.get_lagged_subsequences`
(timeGradNetwork.py lines 195-237).  The two `assert` statements and the
shape requirement of `torch.cat` (all per-lag slices must agree on the time
dimension) are the failure cases.  On success the result is the tensor
obtained from `torch.cat(lagged_values, dim=1).permute(0, 2, 3, 1)`:
entry `[b, t, c, i]` reads slice `i` at time `t`, channel `c`. -/
def get_lagged_subsequences (x : Tensor3) (sequence_length : Int)
    (indices : List Int) (subsequences_length : Nat) : Option Tensor4 :=
  if indices = [] ∨ ¬ (listMax indices + subsequences_length ≤ sequence_length)
      ∨ ¬ (∀ l ∈ indices, 0 ≤ l) then
    none
  else
    let slices := indices.map (fun lag =>
      tslice x (-lag - subsequences_length) (if 0 < lag then some (-lag) else none))
    if ∀ s ∈ slices, s.t = (slices.headD dummy3).t then
      some ⟨x.n, (slices.headD dummy3).t, x.c, indices.length,
            fun b t c i => (slices.getD i dummy3).val b t c⟩
    else
      none

/-! ### Generic fold lemmas for `min` / `max` -/

theorem foldl_min_le_init {α : Type} [LinearOrder α] (l : List α) (a : α) :
    l.foldl min a ≤ a := by
  induction l generalizing a with
  | nil => simp
  | cons x xs ih => exact le_trans (ih (min a x)) (min_le_left a x)

theorem foldl_min_le_mem {α : Type} [LinearOrder α] (l : List α) (a : α) {x : α}
    (hx : x ∈ l) : l.foldl min a ≤ x := by
  induction l generalizing a with
  | nil => cases hx
  | cons y ys ih =>
    rcases List.mem_cons.mp hx with h | h
    · subst h
      exact le_trans (foldl_min_le_init ys (min a x)) (min_le_right a x)
    · exact ih (min a y) h

theorem foldl_min_cases {α : Type} [LinearOrder α] (l : List α) (a : α) :
    l.foldl min a = a ∨ l.foldl min a ∈ l := by
  induction l generalizing a with
  | nil => exact Or.inl rfl
  | cons x xs ih =>
    rcases ih (min a x) with h | h
    · rcases min_choice a x with hm | hm
      · exact Or.inl (by rw [List.foldl_cons, h, hm])
      · exact Or.inr (by rw [List.foldl_cons, h, hm]; exact List.mem_cons_self _ _)
    · exact Or.inr (List.mem_cons_of_mem _ h)

theorem init_le_foldl_max {α : Type} [LinearOrder α] (l : List α) (a : α) :
    a ≤ l.foldl max a := by
  induction l generalizing a with
  | nil => simp
  | cons x xs ih => exact le_trans (le_max_left a x) (ih (max a x))

theorem mem_le_foldl_max {α : Type} [LinearOrder α] (l : List α) (a : α) {x : α}
    (hx : x ∈ l) : x ≤ l.foldl max a := by
  induction l generalizing a with
  | nil => cases hx
  | cons y ys ih =>
    rcases List.mem_cons.mp hx with h | h
    · subst h
      exact le_trans (le_max_right a x) (init_le_foldl_max ys (max a x))
    · exact ih (max a y) h

theorem foldl_max_cases {α : Type} [LinearOrder α] (l : List α) (a : α) :
    l.foldl max a = a ∨ l.foldl max a ∈ l := by
  induction l generalizing a with
  | nil => exact Or.inl rfl
  | cons x xs ih =>
    rcases ih (max a x) with h | h
    · rcases max_choice a x with hm | hm
      · exact Or.inl (by rw [List.foldl_cons, h, hm])
      · exact Or.inr (by rw [List.foldl_cons, h, hm]; exact List.mem_cons_self _ _)
    · exact Or.inr (List.mem_cons_of_mem _ h)

/-! ### Facts about `listMax` -/

theorem le_listMax {l : List Int} {x : Int} (hx : x ∈ l) : x ≤ listMax l := by
  cases l with
  | nil => cases hx
  | cons a l =>
    rcases List.mem_cons.mp hx with h | h
    · subst h; exact init_le_foldl_max l x
    · exact mem_le_foldl_max l a h

theorem listMax_mem {l : List Int} (h : l ≠ []) : listMax l ∈ l := by
  cases l with
  | nil => exact absurd rfl h
  | cons a l =>
    rcases foldl_max_cases l a with hc | hc
    · rw [listMax, hc]; exact List.mem_cons_self _ _
    · exact List.mem_cons_of_mem _ hc

theorem listMax_nonneg {l : List Int} (hne : l ≠ []) (h : ∀ x ∈ l, 0 ≤ x) :
    0 ≤ listMax l :=
  h _ (listMax_mem hne)

theorem listMax_perm {l₁ l₂ : List Int} (hp : l₁.Perm l₂) (hne : l₁ ≠ []) :
    listMax l₁ = listMax l₂ := by
  have hne₂ : l₂ ≠ [] := by
    intro h
    exact hne (List.eq_nil_of_length_eq_zero (by rw [hp.length_eq, h]; rfl))
  exact le_antisymm
    (le_listMax (hp.mem_iff.mp (listMax_mem hne)))
    (le_listMax (hp.mem_iff.mpr (listMax_mem hne₂)))

/-! ### The characterization of `get_lagged_subsequences` on valid input -/

theorem get_lagged_slice_shape (x : Tensor3) {lag : Int} {S : Nat}
    (hlag : 0 ≤ lag) (hS : 1 ≤ S) (hle : lag + S ≤ (x.t : Int)) :
    (tslice x (-lag - S) (if 0 < lag then some (-lag) else none)).t = S ∧
    ∀ b j c, (tslice x (-lag - S) (if 0 < lag then some (-lag) else none)).val b j c
      = x.val b ((x.t - (lag.toNat + S)) + j) c := by
  obtain ⟨m, rfl⟩ := Int.eq_ofNat_of_zero_le hlag
  have hmS : m + S ≤ x.t := by exact_mod_cast hle
  have hstart : pyIdx x.t (-(m : Int) - S) = x.t - (m + S) := by
    have hneg : -(m : Int) - S < 0 := by omega
    rw [pyIdx, if_pos hneg]
    omega
  constructor
  · by_cases hm : 0 < (m : Int)
    · have hm' : 0 < m := by exact_mod_cast hm
      have hstop : pyIdx x.t (-(m : Int)) = x.t - m := by
        rw [pyIdx, if_pos (by omega)]
        omega
      simp only [tslice, if_pos hm, hstart, hstop]
      omega
    · have hm0 : m = 0 := by omega
      subst hm0
      simp only [tslice, if_neg hm, hstart]
      omega
  · intro b j c
    by_cases hm : 0 < (m : Int)
    · simp only [tslice, if_pos hm, hstart]
      simp
    · have hm0 : m = 0 := by omega
      subst hm0
      simp only [tslice, if_neg hm, hstart]
      simp

theorem list_getD_map {α β : Type} (f : α → β) (l : List α) (i : Nat) (d : β)
    (hi : i < l.length) : (l.map f).getD i d = f (l.get ⟨i, hi⟩) := by
  induction l generalizing i with
  | nil => cases hi
  | cons a l ih =>
    cases i with
    | zero => rfl
    | succ j =>
      have hj : j < l.length := by simpa using hi
      simpa [List.getD] using ih j hj

theorem get_lagged_spec (x : Tensor3) (L : Int) (idx : List Int) (S : Nat)
    (hne : idx ≠ []) (hnn : ∀ l ∈ idx, 0 ≤ l) (hS : 1 ≤ S)
    (hxt : (x.t : Int) = L) (hmax : listMax idx + S ≤ L) :
    ∃ out, get_lagged_subsequences x L idx S = some out ∧
      out.d0 = x.n ∧ out.d1 = S ∧ out.d2 = x.c ∧ out.d3 = idx.length ∧
      ∀ b t c i, ∀ hi : i < idx.length,
        out.val b t c i = x.val b ((x.t - ((idx.get ⟨i, hi⟩).toNat + S)) + t) c := by
  have hcond : ¬ (idx = [] ∨ ¬ (listMax idx + S ≤ L) ∨ ¬ (∀ l ∈ idx, 0 ≤ l)) := by
    push_neg
    exact ⟨hne, hmax, hnn⟩
  have hslice : ∀ lag ∈ idx,
      (tslice x (-lag - S) (if 0 < lag then some (-lag) else none)).t = S ∧
      ∀ b j c, (tslice x (-lag - S) (if 0 < lag then some (-lag) else none)).val b j c
        = x.val b ((x.t - (lag.toNat + S)) + j) c := by
    intro lag hlag
    refine get_lagged_slice_shape x (hnn lag hlag) hS ?_
    have h1 : (lag : Int) ≤ listMax idx := le_listMax hlag
    have h2 : (x.t : Int) = L := hxt
    omega
  rw [get_lagged_subsequences, if_neg hcond]
  set f : Int → Tensor3 :=
    fun lag => tslice x (-lag - S) (if 0 < lag then some (-lag) else none) with hf
  have hall : ∀ s ∈ idx.map f, s.t = S := by
    intro s hs
    rcases List.mem_map.mp hs with ⟨lag, hlag, rfl⟩
    exact (hslice lag hlag).1
  have hhead : ((idx.map f).headD dummy3).t = S := by
    cases idx with
    | nil => exact absurd rfl hne
    | cons a l =>
      simp only [List.map_cons, List.headD_cons]
      exact (hslice a (List.mem_cons_self a l)).1
  have hguard : ∀ s ∈ idx.map f, s.t = ((idx.map f).headD dummy3).t := by
    intro s hs
    rw [hall s hs, hhead]
  simp only [if_pos hguard]
  refine ⟨_, rfl, rfl, hhead, rfl, rfl, ?_⟩
  intro b t c i hi
  have hget : (idx.map f).getD i dummy3 = f (idx.get ⟨i, hi⟩) :=
    list_getD_map f idx i dummy3 hi
  show ((idx.map f).getD i dummy3).val b t c = _
  rw [hget]
  exact (hslice _ (idx.get_mem i hi)).2 b t c

/-! ### Claims C1 and C3: the lag extractor -/

/-- C1 (amended): for a batch series whose time axis has length
`sequence_length`, a nonempty list of non-negative lag indices with
`max(indices) + subsequences_length <= sequence_length`, and
`subsequences_length >= 1`, `get_lagged_subsequences` returns a 4-D tensor of
shape (batch, subsequences_length, target_dim, num_lags) whose entry
`[b, t, c, i]` equals `series[b, sequence_length - indices[i]
- subsequences_length + t, c]` for all valid `b, t, c, i`.  (The original
claim without the `subsequences_length >= 1` restriction is refuted by
`C1_lagged_subsequences_counterexample`.) -/
theorem C1_lagged_subsequences_amended (x : Tensor3) (L : Nat) (idx : List Int)
    (S : Nat) (hxt : x.t = L) (hne : idx ≠ []) (hnn : ∀ l ∈ idx, 0 ≤ l)
    (hmax : listMax idx + S ≤ (L : Int)) (hS : 1 ≤ S) :
    ∃ out, get_lagged_subsequences x L idx S = some out ∧
      out.d0 = x.n ∧ out.d1 = S ∧ out.d2 = x.c ∧ out.d3 = idx.length ∧
      ∀ b t c i, ∀ hi : i < idx.length,
        out.val b t c i = x.val b (L - (idx.get ⟨i, hi⟩).toNat - S + t) c := by
  have hxt' : (x.t : Int) = (L : Int) := by exact_mod_cast congrArg (Nat.cast) hxt
  obtain ⟨out, hsome, h0, h1, h2, h3, hval⟩ :=
    get_lagged_spec x L idx S hne hnn hS hxt' hmax
  refine ⟨out, hsome, h0, h1, h2, h3, ?_⟩
  intro b t c i hi
  rw [hval b t c i hi, hxt]
  congr 1
  omega

/-- Concrete 1×1×1 series used by the counterexample to C1. -/
def cexSeq : Tensor3 := ⟨1, 1, 1, fun _ _ _ => 5⟩

/-- C1 counterexample: with `indices = [0]`, `subsequences_length = 0` and
`sequence_length = 1` the preconditions of the original claim hold
(`max(indices) + subsequences_length = 0 <= 1`, all indices non-negative),
yet the code returns a tensor whose second dimension is 1, not
`subsequences_length = 0`: the slice `sequence[:, -0-0:None]` is the whole
series, so the original shape claim is false. -/
theorem C1_lagged_subsequences_counterexample :
    ([0] : List Int) ≠ [] ∧ (∀ l ∈ ([0] : List Int), 0 ≤ l) ∧
    listMax [0] + ((0 : Nat) : Int) ≤ (1 : Int) ∧
    Option.map Tensor4.d1 (get_lagged_subsequences cexSeq 1 [0] 0) = some 1 := by
  decide

/-- Witness for C1: the amended theorem applied to a concrete 1×3×1 series
with lag 1 and subsequence length 2. -/
theorem C1_lagged_subsequences_amended_witness :
    ((⟨1, 3, 1, fun b t c => b + 10 * t + 100 * c⟩ : Tensor3).t = 3 ∧
      ([1] : List Int) ≠ [] ∧ (∀ l ∈ ([1] : List Int), 0 ≤ l) ∧
      listMax [1] + ((2 : Nat) : Int) ≤ ((3 : Nat) : Int) ∧ 1 ≤ 2) ∧
    (∃ out, get_lagged_subsequences ⟨1, 3, 1, fun b t c => b + 10 * t + 100 * c⟩
        3 [1] 2 = some out ∧
      out.d0 = 1 ∧ out.d1 = 2 ∧ out.d2 = 1 ∧ out.d3 = 1 ∧
      ∀ b t c i, ∀ hi : i < ([1] : List Int).length,
        out.val b t c i =
          (⟨1, 3, 1, fun b t c => b + 10 * t + 100 * c⟩ : Tensor3).val b
            (3 - (([1] : List Int).get ⟨i, hi⟩).toNat - 2 + t) c) :=
  ⟨by refine ⟨rfl, ?_, ?_, ?_, ?_⟩ <;> decide,
   C1_lagged_subsequences_amended ⟨1, 3, 1, fun b t c => b + 10 * t + 100 * c⟩
     3 [1] 2 rfl (by decide) (by decide) (by decide) (by decide)⟩

/-- C3: calling `get_lagged_subsequences` with
`max(indices) + subsequences_length > sequence_length` or with some negative
index fails on the `assert` statements before any slicing: the result is the
failing computation (`none`), never a silently truncated tensor. -/
theorem C3_lag_precondition_violation_fails (x : Tensor3) (L : Int)
    (idx : List Int) (S : Nat)
    (hbad : ¬ (listMax idx + S ≤ L) ∨ ∃ l ∈ idx, l < 0) :
    get_lagged_subsequences x L idx S = none := by
  have hcond : idx = [] ∨ ¬ (listMax idx + S ≤ L) ∨ ¬ (∀ l ∈ idx, 0 ≤ l) := by
    rcases hbad with h | ⟨l, hl, hneg⟩
    · exact Or.inr (Or.inl h)
    · refine Or.inr (Or.inr ?_)
      push_neg
      exact ⟨l, hl, hneg⟩
  rw [get_lagged_subsequences, if_pos hcond]

/-- Witness for C3: a lag of 5 with subsequence length 2 cannot be served by a
history of length 1, and the call fails. -/
theorem C3_lag_precondition_violation_fails_witness :
    (¬ (listMax [5] + ((2 : Nat) : Int) ≤ (1 : Int)) ∨ ∃ l ∈ ([5] : List Int), l < 0) ∧
    get_lagged_subsequences cexSeq 1 [5] 2 = none :=
  ⟨by decide,
   C3_lag_precondition_violation_fails cexSeq 1 [5] 2 (by decide)⟩

/-! ### The TimeGrad network: scalers, configuration, environment -/

/-- Configuration fields of `MeanStdScaler` (constructor arguments passed in
`PersonnalizedTimeGrad.__init__`, timeGradNetwork.py lines 116-124). -/
structure MeanStdCfg where
  minimum_std : ℚ
  minimum_std_cst : ℚ
  default_scale : Bool
  default_scale_cst : Bool
  add_minimum_std : Bool
deriving DecidableEq

/-- The scaler object selected in `__init__` (lines 109-128): one of
`MeanScaler`, `NOPScaler`, `CenteredMeanScaler`, `MeanStdScaler`. -/
inductive ScalerKind where
  | meanSc
  | nopsSc
  | centeredMeanSc
  | meanStdSc (cfg : MeanStdCfg)
deriving DecidableEq

/-- Result of calling a scaler object: `Mean`/`NOP` scalers return a 2-tuple
`(data, scale)`, `MeanStd`/`CenteredMean` scalers a 3-tuple
`(data, mean, std)`; unpacking the wrong arity raises in Python. -/
inductive ScalerResult where
  | two (data scale : Tensor3)
  | three (data mean std : Tensor3)

/-- The scale-parameter record passed around as a dict in the source:
`{"scale": scale}` or `{"mean": mean, "std": std}`. -/
inductive ScaleParams where
  | scaleOnly (scale : Tensor3)
  | meanStd (mean std : Tensor3)

/-- Modelled from the spec: `MeanScaler` of the external
`data_and_transformation` module (repository code not under src/): the
per-series scale is the average of `|value|` over observed timesteps, with a
floor to avoid division by zero (the spec does not fix the floor; `1/10^10`
here); keepdim shape (batch, 1, target_dim). -/
def meanScalerScale (data mask : Tensor3) : Tensor3 :=
  ⟨data.n, 1, data.c, fun b _ c =>
    let tot := ((List.range data.t).map (fun t => mask.val b t c * |data.val b t c|)).sum
    let cnt := ((List.range data.t).map (fun t => mask.val b t c)).sum
    max (if cnt = 0 then 0 else tot / cnt) (1 / 10 ^ 10)⟩

/-- Modelled from the spec: `NOPScaler` performs identity normalization and
returns `scale = 1` regardless of input. -/
def nopScalerScale (data : Tensor3) : Tensor3 :=
  ⟨data.n, 1, data.c, fun _ _ _ => 1⟩

/-- External capabilities consumed by the network: the RNN (`nn.LSTM`/`nn.GRU`),
the embedding table (`nn.Embedding`), the diffusion head (`GaussianDiffusion`
through `DiffusionOutput`, with its mutable `scale` attribute threaded as an
explicit argument), and the two scalers whose aggregates involve a square root
and therefore stay opaque.  Recurrent state is an opaque handle (`Nat`); per
the spec only a repeat-along-batch operation is needed on it, parameterized by
the cell type to cover the list-of-tensors vs single-tensor branch. -/
structure NetEnv where
  embedTable : Nat → Nat → ℚ
  rnn : Tensor3 → Option Nat → Tensor3 × Nat
  projDistArgs : Tensor3 → Tensor3
  logProb : Option ScaleParams → Tensor3 → Tensor3 → Tensor2
  sample : Option ScaleParams → Tensor3 → Tensor3
  meanStdScaler : MeanStdCfg → Tensor3 → Tensor3 → Tensor3 × Tensor3 × Tensor3
  centeredMeanScaler : Tensor3 → Tensor3 → Tensor3 × Tensor3 × Tensor3
  repeatState : String → Nat → Nat → Nat

/-- Calling `self.scaler(data, observed_indicator)`. -/
def runScaler (env : NetEnv) (k : ScalerKind) (data mask : Tensor3) : ScalerResult :=
  match k with
  | .meanSc => .two data (meanScalerScale data mask)
  | .nopsSc => .two data (nopScalerScale data)
  | .centeredMeanSc =>
    let r := env.centeredMeanScaler data mask
    .three r.1 r.2.1 r.2.2
  | .meanStdSc cfg =>
    let r := env.meanStdScaler cfg data mask
    .three r.1 r.2.1 r.2.2

/-- The state of a constructed `PersonnalizedTimeGrad` network: the fields of
`self` that the embedded methods read. -/
structure Net where
  num_parallel_samples : Nat
  context_length : Nat
  prediction_length : Nat
  target_dim : Nat
  scaling : Bool
  scaler_type : String
  scaler : ScalerKind
  div_by_std : Bool
  lags_seq : List Int
  shifted_lags : List Int
  history_length : Int
  embed_dim : Nat
  cell_type : String
deriving DecidableEq

/-- Constructor arguments of `PersonnalizedTimeGrad.__init__` that determine
the embedded network state. -/
structure Config where
  num_parallel_samples : Nat
  context_length : Nat
  prediction_length : Nat
  target_dim : Nat
  scaling : Bool
  scaler_type : String
  div_by_std : Bool
  minimum_std : ℚ
  minimum_std_cst : ℚ
  default_scale : Bool
  default_scale_cst : Bool
  add_minimum_std : Bool
  lags_seq : List Int
  embedding_dimension : Nat
  cell_type : String
deriving DecidableEq

/-- Embedding of `PersonnalizedTimeGrad.__init__` (lines 23-147) restricted to
the state the embedded methods read.  Failure cases: `max(self.lags_seq)` on
line 64 raises on an empty lag list; an unrecognized scaler type raises
`ValueError` when `scaling` is set (lines 109-128; when `scaling` is false the
scaler type is not inspected and a `NOPScaler` is installed); an unrecognized
cell type raises `KeyError` in the dict lookup on line 140.  `shifted_lags` is
computed from the constructor argument before `lags_seq` is sorted in place
(lines 75-77). -/
def initNet (cfg : Config) : Option Net :=
  if cfg.lags_seq = [] then none
  else
    let scalerOpt : Option ScalerKind :=
      if cfg.scaling then
        if cfg.scaler_type = "mean" then some .meanSc
        else if cfg.scaler_type = "nops" then some .nopsSc
        else if cfg.scaler_type = "centered_mean" then some .centeredMeanSc
        else if cfg.scaler_type = "mean_std" then
          some (.meanStdSc ⟨cfg.minimum_std, cfg.minimum_std_cst,
            cfg.default_scale, cfg.default_scale_cst, cfg.add_minimum_std⟩)
        else none
      else some .nopsSc
    match scalerOpt with
    | none => none
    | some sk =>
      if cfg.cell_type = "LSTM" ∨ cfg.cell_type = "GRU" then
        some { num_parallel_samples := cfg.num_parallel_samples
               context_length := cfg.context_length
               prediction_length := cfg.prediction_length
               target_dim := cfg.target_dim
               scaling := cfg.scaling
               scaler_type := cfg.scaler_type
               scaler := sk
               div_by_std := cfg.div_by_std
               lags_seq := List.insertionSort (fun a b => a ≤ b) cfg.lags_seq
               shifted_lags := cfg.lags_seq.map (fun l => l - 1)
               history_length := cfg.context_length + listMax cfg.lags_seq
               embed_dim := cfg.embedding_dimension
               cell_type := cfg.cell_type }
      else none

/-! ### unroll and unroll_encoder -/

/-- `lags / scale.unsqueeze(-1)` with `scale` of shape (batch, 1, target_dim). -/
def divScale4 (lags : Tensor4) (scale : Tensor3) : Tensor4 :=
  ⟨lags.d0, lags.d1, lags.d2, lags.d3,
   fun b t c i => lags.val b t c i / scale.val b 0 c⟩

/-- `(lags - mean.unsqueeze(-1)) / std.unsqueeze(-1)`. -/
def normMeanStd4 (lags : Tensor4) (mean std : Tensor3) : Tensor4 :=
  ⟨lags.d0, lags.d1, lags.d2, lags.d3,
   fun b t c i => (lags.val b t c i - mean.val b 0 c) / std.val b 0 c⟩

/-- `lags_scaled.reshape((-1, unroll_length, num_lags * target_dim))`:
row-major flattening of the last two axes (shapes agree at all call sites, so
the reshape is a buffer reinterpretation). -/
def reshapeFlatten23 (x : Tensor4) : Tensor3 :=
  ⟨x.d0, x.d1, x.d2 * x.d3, fun b t f => x.val b t (f / x.d3) (f % x.d3)⟩

/-- The per-series index embeddings broadcast across time and flattened
(lines 278-288). -/
def repeatedEmbeddings (env : NetEnv) (net : Net) (tdi : TensorI2)
    (unroll_length : Nat) : Tensor3 :=
  ⟨tdi.n, unroll_length, net.target_dim * net.embed_dim,
   fun b _ f => env.embedTable (tdi.val b (f / net.embed_dim)) (f % net.embed_dim)⟩

/-- Embedding of `PersonnalizedTimeGrad.unroll` (lines 239-308).  The dispatch
on the scaler-type string raises `ValueError` for unrecognized strings, and a
missing key in the scale-parameter dict raises `KeyError`; both are `none`.
Returns `(outputs, state, lags_scaled, inputs)`. -/
def unroll (env : NetEnv) (net : Net) (lags : Tensor4) (scale_params : ScaleParams)
    (time_feat : Tensor3) (tdi : TensorI2) (unroll_length : Nat)
    (begin_state : Option Nat) : Option (Tensor3 × Nat × Tensor4 × Tensor3) :=
  let lagsScaledOpt : Option Tensor4 :=
    if net.scaler_type = "mean" then
      match scale_params with
      | .scaleOnly scale => some (divScale4 lags scale)
      | .meanStd _ _ => none
    else if net.scaler_type = "mean_std" ∨ net.scaler_type = "centered_mean" then
      match scale_params with
      | .meanStd mean std => some (normMeanStd4 lags mean std)
      | .scaleOnly _ => none
    else none
  match lagsScaledOpt with
  | none => none
  | some lags_scaled =>
    let input_lags := reshapeFlatten23 lags_scaled
    let inputs :=
      if 0 < net.embed_dim then
        catC (catC input_lags (repeatedEmbeddings env net tdi unroll_length)) time_feat
      else catC input_lags time_feat
    let r := env.rnn inputs begin_state
    some (r.1, r.2, lags_scaled, inputs)

/-- The scale-parameter computation of `unroll_encoder` (lines 370-372 and
396-411): the effective observed mask is `min(past_observed_values,
1 - past_is_pad.unsqueeze(-1))`, and the scaler is applied to the last
`context_length` steps of the past target and of that mask only; the dispatch
on the scaler-type string raises `ValueError` for unrecognized strings, and
unpacking a scaler result of the wrong arity raises as well (both `none`). -/
def encoderScaleOpt (env : NetEnv) (net : Net)
    (past_target_cdf past_observed_values : Tensor3) (past_is_pad : Tensor2) :
    Option ScaleParams :=
  let pobs := tmin past_observed_values (oneMinusPad past_is_pad)
  if net.scaler_type = "mean" then
    match runScaler env net.scaler (lastT past_target_cdf net.context_length)
        (lastT pobs net.context_length) with
    | .two _ scale => some (.scaleOnly scale)
    | .three _ _ _ => none
  else if net.scaler_type = "mean_std" ∨ net.scaler_type = "centered_mean" then
    match runScaler env net.scaler (lastT past_target_cdf net.context_length)
        (lastT pobs net.context_length) with
    | .three _ mean std => some (.meanStd mean std)
    | .two _ _ => none
  else none

/-- Embedding of `PersonnalizedTimeGrad.unroll_encoder` (lines 310-429).
When both future tensors are present the encoder runs in teacher-forced mode
over past+future, otherwise over the past only (line 374: `if future_time_feat
is None or future_target_cdf is None`).  Returns
`(outputs, state, scale_params, lags_scaled, inputs)`. -/
def unroll_encoder (env : NetEnv) (net : Net)
    (past_time_feat past_target_cdf past_observed_values : Tensor3)
    (past_is_pad : Tensor2) (future_time_feat future_target_cdf : Option Tensor3)
    (tdi : TensorI2) : Option (Tensor3 × Nat × ScaleParams × Tensor4 × Tensor3) :=
  let modeArgs : Tensor3 × Tensor3 × Int × Nat :=
    match future_time_feat, future_target_cdf with
    | some ftf, some fcdf =>
      (catT (lastT past_time_feat net.context_length) ftf,
       catT past_target_cdf fcdf,
       net.history_length + net.prediction_length,
       net.context_length + net.prediction_length)
    | _, _ =>
      (lastT past_time_feat net.context_length, past_target_cdf,
       net.history_length, net.context_length)
  match get_lagged_subsequences modeArgs.2.1 modeArgs.2.2.1 net.lags_seq
      modeArgs.2.2.2 with
  | none => none
  | some lags =>
    match encoderScaleOpt env net past_target_cdf past_observed_values past_is_pad with
    | none => none
    | some scale_params =>
      match unroll env net lags scale_params modeArgs.1 tdi modeArgs.2.2.2 none with
      | none => none
      | some r => some (r.1, r.2.1, scale_params, r.2.2.1, r.2.2.2)

/-! ### Claim C2: the scale parameters never observe future data -/

theorem unroll_isSome_of_encoderScale (env : NetEnv) (net : Net)
    (pcdf pobs : Tensor3) (ppad : Tensor2) (sp : ScaleParams)
    (hsp : encoderScaleOpt env net pcdf pobs ppad = some sp)
    (lags : Tensor4) (tf : Tensor3) (tdi : TensorI2) (L : Nat) (st : Option Nat) :
    (unroll env net lags sp tf tdi L st).isSome := by
  rw [encoderScaleOpt] at hsp
  by_cases h1 : net.scaler_type = "mean"
  · rw [if_pos h1] at hsp
    cases hrs : runScaler env net.scaler (lastT pcdf net.context_length)
        (lastT (tmin pobs (oneMinusPad ppad)) net.context_length) with
    | two d s =>
      rw [hrs] at hsp
      simp only [Option.some.injEq] at hsp
      subst hsp
      simp [unroll, h1]
    | three d m s =>
      rw [hrs] at hsp
      cases hsp
  · rw [if_neg h1] at hsp
    by_cases h2 : net.scaler_type = "mean_std" ∨ net.scaler_type = "centered_mean"
    · rw [if_pos h2] at hsp
      cases hrs : runScaler env net.scaler (lastT pcdf net.context_length)
          (lastT (tmin pobs (oneMinusPad ppad)) net.context_length) with
      | two d s =>
        rw [hrs] at hsp
        cases hsp
      | three d m s =>
        rw [hrs] at hsp
        simp only [Option.some.injEq] at hsp
        subst hsp
        simp [unroll, h1, h2]
    · rw [if_neg h2] at hsp
      cases hsp

theorem unroll_encoder_scale_char (env : NetEnv) (net : Net)
    (ptf pcdf pobs : Tensor3) (ppad : Tensor2)
    (oftf ofcdf : Option Tensor3) (tdi : TensorI2)
    (hlag : (match oftf, ofcdf with
      | some _, some fcdf =>
        get_lagged_subsequences (catT pcdf fcdf)
          (net.history_length + net.prediction_length) net.lags_seq
          (net.context_length + net.prediction_length)
      | _, _ =>
        get_lagged_subsequences pcdf net.history_length net.lags_seq
          net.context_length).isSome) :
    (unroll_encoder env net ptf pcdf pobs ppad oftf ofcdf tdi).map
        (fun r => r.2.2.1)
      = encoderScaleOpt env net pcdf pobs ppad := by
  cases oftf with
  | none =>
    cases ofcdf with
    | none =>
      simp only [unroll_encoder]
      dsimp only at hlag
      obtain ⟨lags, hl⟩ := Option.isSome_iff_exists.mp hlag
      rw [hl]
      cases hsc : encoderScaleOpt env net pcdf pobs ppad with
      | none => rfl
      | some sp =>
        obtain ⟨r, hr⟩ := Option.isSome_iff_exists.mp
          (unroll_isSome_of_encoderScale env net pcdf pobs ppad sp hsc lags
            (lastT ptf net.context_length) tdi net.context_length none)
        dsimp only
        rw [hr]
        rfl
    | some fcdf =>
      simp only [unroll_encoder]
      dsimp only at hlag
      obtain ⟨lags, hl⟩ := Option.isSome_iff_exists.mp hlag
      rw [hl]
      cases hsc : encoderScaleOpt env net pcdf pobs ppad with
      | none => rfl
      | some sp =>
        obtain ⟨r, hr⟩ := Option.isSome_iff_exists.mp
          (unroll_isSome_of_encoderScale env net pcdf pobs ppad sp hsc lags
            (lastT ptf net.context_length) tdi net.context_length none)
        dsimp only
        rw [hr]
        rfl
  | some ftf =>
    cases ofcdf with
    | none =>
      simp only [unroll_encoder]
      dsimp only at hlag
      obtain ⟨lags, hl⟩ := Option.isSome_iff_exists.mp hlag
      rw [hl]
      cases hsc : encoderScaleOpt env net pcdf pobs ppad with
      | none => rfl
      | some sp =>
        obtain ⟨r, hr⟩ := Option.isSome_iff_exists.mp
          (unroll_isSome_of_encoderScale env net pcdf pobs ppad sp hsc lags
            (lastT ptf net.context_length) tdi net.context_length none)
        dsimp only
        rw [hr]
        rfl
    | some fcdf =>
      simp only [unroll_encoder]
      dsimp only at hlag
      obtain ⟨lags, hl⟩ := Option.isSome_iff_exists.mp hlag
      rw [hl]
      cases hsc : encoderScaleOpt env net pcdf pobs ppad with
      | none => rfl
      | some sp =>
        obtain ⟨r, hr⟩ := Option.isSome_iff_exists.mp
          (unroll_isSome_of_encoderScale env net pcdf pobs ppad sp hsc lags
            (catT (lastT ptf net.context_length) ftf) tdi
            (net.context_length + net.prediction_length) none)
        dsimp only
        rw [hr]
        rfl

theorem encoder_lag_isSome (net : Net) (pcdf : Tensor3)
    (oftf ofcdf : Option Tensor3)
    (hne : net.lags_seq ≠ []) (hnn : ∀ l ∈ net.lags_seq, 0 ≤ l)
    (hctx : 1 ≤ net.context_length)
    (hhist : net.history_length = net.context_length + listMax net.lags_seq)
    (hpt : (pcdf.t : Int) = net.history_length)
    (hfc : ∀ x, ofcdf = some x → x.t = net.prediction_length) :
    (match oftf, ofcdf with
      | some _, some fcdf =>
        get_lagged_subsequences (catT pcdf fcdf)
          (net.history_length + net.prediction_length) net.lags_seq
          (net.context_length + net.prediction_length)
      | _, _ =>
        get_lagged_subsequences pcdf net.history_length net.lags_seq
          net.context_length).isSome := by
  have hmaxle : listMax net.lags_seq + net.context_length ≤ net.history_length := by
    rw [hhist]; omega
  cases oftf with
  | none =>
    obtain ⟨out, hout, _⟩ := get_lagged_spec pcdf net.history_length net.lags_seq
      net.context_length hne hnn hctx hpt (by omega)
    simp only []
    rw [hout]
    rfl
  | some ftf =>
    cases ofcdf with
    | none =>
      obtain ⟨out, hout, _⟩ := get_lagged_spec pcdf net.history_length net.lags_seq
        net.context_length hne hnn hctx hpt (by omega)
      simp only []
      rw [hout]
      rfl
    | some fcdf =>
      have hft : fcdf.t = net.prediction_length := hfc fcdf rfl
      have hcatt : ((catT pcdf fcdf).t : Int)
          = net.history_length + net.prediction_length := by
        show ((pcdf.t + fcdf.t : Nat) : Int) = _
        push_cast
        rw [hft] at *
        omega
      obtain ⟨out, hout, _⟩ := get_lagged_spec (catT pcdf fcdf)
        (net.history_length + net.prediction_length) net.lags_seq
        (net.context_length + net.prediction_length) hne hnn (by omega) hcatt
        (by push_cast; omega)
      simp only []
      rw [hout]
      rfl

/-- C2: the scale parameters returned by `unroll_encoder` depend only on past
data: two calls that agree on `past_time_feat`, `past_target_cdf`,
`past_observed_values`, `past_is_pad` and `target_dimension_indicator` but
differ arbitrarily in `future_time_feat` and `future_target_cdf` (including
passing `None` for both) return identical `scale_params` — scale never
observes future data.  The shape hypotheses say the network is well formed
(nonempty non-negative lags, `history_length = context_length + max(lags)`,
`context_length ≥ 1`) and the inputs conform (past target of length
`history_length`, any supplied future target of length `prediction_length`). -/
theorem C2_scale_no_lookahead (env : NetEnv) (net : Net)
    (ptf pcdf pobs : Tensor3) (ppad : Tensor2) (tdi : TensorI2)
    (oftf₁ ofcdf₁ oftf₂ ofcdf₂ : Option Tensor3)
    (hne : net.lags_seq ≠ []) (hnn : ∀ l ∈ net.lags_seq, 0 ≤ l)
    (hctx : 1 ≤ net.context_length)
    (hhist : net.history_length = net.context_length + listMax net.lags_seq)
    (hpt : (pcdf.t : Int) = net.history_length)
    (hfc₁ : ∀ x, ofcdf₁ = some x → x.t = net.prediction_length)
    (hfc₂ : ∀ x, ofcdf₂ = some x → x.t = net.prediction_length) :
    (unroll_encoder env net ptf pcdf pobs ppad oftf₁ ofcdf₁ tdi).map
        (fun r => r.2.2.1)
      = (unroll_encoder env net ptf pcdf pobs ppad oftf₂ ofcdf₂ tdi).map
        (fun r => r.2.2.1) := by
  rw [unroll_encoder_scale_char env net ptf pcdf pobs ppad oftf₁ ofcdf₁ tdi
      (encoder_lag_isSome net pcdf oftf₁ ofcdf₁ hne hnn hctx hhist hpt hfc₁),
    unroll_encoder_scale_char env net ptf pcdf pobs ppad oftf₂ ofcdf₂ tdi
      (encoder_lag_isSome net pcdf oftf₂ ofcdf₂ hne hnn hctx hhist hpt hfc₂)]

/-! ### Concrete objects used by witnesses and counterexamples -/

/-- A concrete environment: trivial embedding table, an RNN echoing its input,
identity projection, constant diffusion head, degenerate external scalers. -/
def wEnv : NetEnv :=
  ⟨fun _ _ => 0,
   fun x _ => (x, 0),
   fun x => x,
   fun _ _ _ => ⟨1, 1, fun _ _ => 0⟩,
   fun _ _ => ⟨1, 1, 1, fun _ _ _ => 0⟩,
   fun _ d _ => (d, d, d),
   fun d _ => (d, d, d),
   fun _ _ s => s⟩

/-- A small well-formed network: context 1, prediction 1, lag list `[1]`,
history length 2, mean scaling, no embedding. -/
def wNet : Net := ⟨1, 1, 1, 1, true, "mean", .meanSc, false, [1], [0], 2, 0, "LSTM"⟩

/-- A 1×2×1 all-ones past tensor (length = `wNet.history_length`). -/
def wPast : Tensor3 := ⟨1, 2, 1, fun _ _ _ => 1⟩

/-- A 1×1×1 future tensor (length = `wNet.prediction_length`). -/
def wFut : Tensor3 := ⟨1, 1, 1, fun _ _ _ => 2⟩

/-- A 1×2 zero padding-indicator tensor. -/
def wPad : Tensor2 := ⟨1, 2, fun _ _ => 0⟩

/-- A 1×1 target-dimension indicator. -/
def wTdi : TensorI2 := ⟨1, 1, fun _ _ => 0⟩

/-- Witness for C2: on the concrete network, the teacher-forced call (futures
supplied) and the past-only call return the same scale parameters. -/
theorem C2_scale_no_lookahead_witness :
    (wNet.lags_seq ≠ [] ∧ (∀ l ∈ wNet.lags_seq, 0 ≤ l) ∧
      1 ≤ wNet.context_length ∧
      wNet.history_length = wNet.context_length + listMax wNet.lags_seq ∧
      ((wPast.t : Int) = wNet.history_length)) ∧
    (unroll_encoder wEnv wNet wPast wPast wPast wPad (some wFut) (some wFut)
        wTdi).map (fun r => r.2.2.1)
      = (unroll_encoder wEnv wNet wPast wPast wPast wPad none none wTdi).map
        (fun r => r.2.2.1) :=
  ⟨⟨by decide, by decide, by decide, by decide, by decide⟩,
   C2_scale_no_lookahead wEnv wNet wPast wPast wPast wPad wTdi
     (some wFut) (some wFut) none none (by decide) (by decide) (by decide)
     (by decide) (by decide)
     (fun x hx => by injection hx with h; subst h; rfl)
     (fun x hx => Option.noConfusion hx)⟩

/-! ### Claim C6: scaler-type dispatch at construction vs first use -/

/-- Configuration selecting the no-op scaler with scaling enabled. -/
def cfgNops : Config :=
  ⟨1, 1, 1, 1, true, "nops", false, 0, 0, true, true, true, [1], 0, "LSTM"⟩

/-- Configuration with an unrecognized scaler type and scaling enabled. -/
def cfgBogus : Config :=
  ⟨1, 1, 1, 1, true, "bogus", false, 0, 0, true, true, true, [1], 0, "LSTM"⟩

/-- Configuration with an unrecognized scaler type and scaling disabled. -/
def cfgNoScaling : Config :=
  ⟨1, 1, 1, 1, false, "bogus", false, 0, 0, true, true, true, [1], 0, "LSTM"⟩

/-- The network state `initNet cfgNops` constructs. -/
def netNops : Net := ⟨1, 1, 1, 1, true, "nops", .nopsSc, false, [1], [0], 2, 0, "LSTM"⟩

/-- C6 counterexample: `scaler_type = "nops"` is accepted at construction time
(with `scaling = True` a `NOPScaler` is installed, lines 112-113), yet the very
first `unroll_encoder` call raises `ValueError` (lines 398-411 recognize only
"mean", "mean_std", "centered_mean"), so a scaler type accepted at construction
is not accepted by the later calls and the original claim is false. -/
theorem C6_scaler_dispatch_counterexample :
    cfgNops.scaling = true ∧ cfgNops.scaler_type = "nops" ∧
    initNet cfgNops = some netNops ∧
    unroll_encoder wEnv netNops wPast wPast wPast wPad none none wTdi = none :=
  ⟨rfl, rfl, by decide, rfl⟩

/-- C6 (amended): when `scaling` is true, a scaler type outside {"mean",
"nops", "centered_mean", "mean_std"} is a fatal configuration error at
construction time; but when `scaling` is false the scaler type is not
inspected at construction at all, and `unroll`/`unroll_encoder` accept only
{"mean", "mean_std", "centered_mean"}: every other value — including "nops",
which construction accepts — fails with `ValueError` at the first
`unroll_encoder` call rather than at construction. -/
theorem C6_scaler_dispatch_amended :
    (∀ cfg : Config, cfg.scaling = true →
      cfg.scaler_type ≠ "mean" → cfg.scaler_type ≠ "nops" →
      cfg.scaler_type ≠ "centered_mean" → cfg.scaler_type ≠ "mean_std" →
      initNet cfg = none)
    ∧ (∀ cfg : Config, cfg.scaling = false → cfg.lags_seq ≠ [] →
      (cfg.cell_type = "LSTM" ∨ cfg.cell_type = "GRU") →
      (initNet cfg).isSome)
    ∧ (∀ (env : NetEnv) (net : Net) (ptf pcdf pobs : Tensor3) (ppad : Tensor2)
        (oftf ofcdf : Option Tensor3) (tdi : TensorI2),
      net.scaler_type ≠ "mean" → net.scaler_type ≠ "mean_std" →
      net.scaler_type ≠ "centered_mean" →
      unroll_encoder env net ptf pcdf pobs ppad oftf ofcdf tdi = none) := by
  refine ⟨?_, ?_, ?_⟩
  · intro cfg hs h1 h2 h3 h4
    by_cases he : cfg.lags_seq = []
    · simp [initNet, he]
    · simp [initNet, he, hs, h1, h2, h3, h4]
  · intro cfg hs hne hcell
    rcases hcell with h | h <;> simp [initNet, hne, hs, h]
  · intro env net ptf pcdf pobs ppad oftf ofcdf tdi h1 h2 h3
    have hsc : encoderScaleOpt env net pcdf pobs ppad = none := by
      simp [encoderScaleOpt, h1, h2, h3]
    simp only [unroll_encoder]
    cases oftf with
    | none =>
      cases ofcdf with
      | none =>
        dsimp only
        cases get_lagged_subsequences pcdf net.history_length net.lags_seq
            net.context_length with
        | none => rfl
        | some lags => rw [hsc]
      | some fcdf =>
        dsimp only
        cases get_lagged_subsequences pcdf net.history_length net.lags_seq
            net.context_length with
        | none => rfl
        | some lags => rw [hsc]
    | some ftf =>
      cases ofcdf with
      | none =>
        dsimp only
        cases get_lagged_subsequences pcdf net.history_length net.lags_seq
            net.context_length with
        | none => rfl
        | some lags => rw [hsc]
      | some fcdf =>
        dsimp only
        cases get_lagged_subsequences (catT pcdf fcdf)
            (net.history_length + net.prediction_length) net.lags_seq
            (net.context_length + net.prediction_length) with
        | none => rfl
        | some lags => rw [hsc]

/-- Witness for C6 (amended): a bogus scaler type with scaling on fails at
construction; the same bogus type with scaling off is accepted at
construction; the constructed "nops" network is rejected by `unroll_encoder`. -/
theorem C6_scaler_dispatch_amended_witness :
    initNet cfgBogus = none ∧ (initNet cfgNoScaling).isSome ∧
    unroll_encoder wEnv netNops wPast wPast wPast wPad none none wTdi = none :=
  ⟨C6_scaler_dispatch_amended.1 cfgBogus rfl (by decide) (by decide) (by decide)
     (by decide),
   C6_scaler_dispatch_amended.2.1 cfgNoScaling rfl (by decide) (Or.inl rfl),
   C6_scaler_dispatch_amended.2.2 wEnv netNops wPast wPast wPast wPad none none
     wTdi (by decide) (by decide) (by decide)⟩

/-! ### loss and claim C4 -/

/-- `x.min(dim=-1, keepdim=True)` values: minimum across the channel axis. -/
def minDimLast (x : Tensor3) : Tensor3 :=
  ⟨x.n, x.t, 1, fun b t _ =>
    ((List.range x.c).map (fun c => x.val b t c)).foldl min (x.val b t 0)⟩

/-- `likelihoods.unsqueeze(-1)`. -/
def unsqueezeLast (x : Tensor2) : Tensor3 :=
  ⟨x.n, x.t, 1, fun b t _ => x.val b t⟩

/-- The per-timestep loss weights of `loss` (lines 540-555): recompute the
effective observed mask `min(past_observed_values,
1 - past_is_pad.unsqueeze(-1))`, keep its last `context_length` steps,
concatenate the future observed mask along time, and take the minimum across
target dimensions with keepdim. -/
def lossWeights (net : Net) (past_observed_values : Tensor3)
    (past_is_pad : Tensor2) (future_observed_values : Tensor3) : Tensor3 :=
  minDimLast (catT (lastT (tmin past_observed_values (oneMinusPad past_is_pad))
    net.context_length) future_observed_values)

/-- Modelled from the spec: `weighted_average` of the timeGrad utils module
(repository code not under src/): the average of `x` weighted by `weights`
along the time axis, with the denominator floored at 1 to avoid division by
zero. -/
def weighted_average (x w : Tensor3) : Tensor2 :=
  ⟨x.n, x.c, fun b c =>
    ((List.range x.t).map (fun t => w.val b t c * x.val b t c)).sum
      / max (((List.range x.t).map (fun t => w.val b t c)).sum) 1⟩

/-- `loss.mean()`: mean of all entries of a 2-D tensor (0 if empty). -/
def meanAll (x : Tensor2) : ℚ :=
  if x.n * x.t = 0 then 0 else
    (((List.range x.n).map (fun b =>
      ((List.range x.t).map (fun c => x.val b c)).sum)).sum) / (x.n * x.t)

/-- Embedding of `PersonnalizedTimeGrad.loss` (lines 453-565): teacher-forced
encoding, target assembly, projection to distribution arguments, diffusion
log-likelihood (with the diffusion head's `scale` attribute set to the scale
parameters when `self.scaling` is on, lines 530-531, threaded here as an
explicit argument), loss-weight computation and weighted averaging.  Returns
`(loss.mean(), likelihoods, distr_args)`. -/
def loss (env : NetEnv) (net : Net) (tdi : TensorI2)
    (past_target_cdf past_observed_values : Tensor3) (past_is_pad : Tensor2)
    (future_time_feat past_time_feat future_target_cdf
     future_observed_values : Tensor3) : Option (ℚ × Tensor3 × Tensor3) :=
  match unroll_encoder env net past_time_feat past_target_cdf
      past_observed_values past_is_pad (some future_time_feat)
      (some future_target_cdf) tdi with
  | none => none
  | some r =>
    let rnn_outputs := r.1
    let scale_params := r.2.2.1
    let target := catT (lastT past_target_cdf net.context_length) future_target_cdf
    let distr_args := env.projDistArgs rnn_outputs
    let scaleAttr := if net.scaling then some scale_params else none
    let likelihoods := unsqueezeLast (env.logProb scaleAttr target distr_args)
    let lw := lossWeights net past_observed_values past_is_pad
      future_observed_values
    some (meanAll (weighted_average likelihoods lw), likelihoods, distr_args)

/-- Spec-side formula, named from the words of claim C4: the effective
observed mask entry at batch `b`, window timestep `t`, target dimension `c`;
for past steps (`t < context_length`, reading the last `context_length` past
steps) it is `min(past_observed_values, 1 - past_is_pad)`, for future steps
it is `future_observed_values` as given. -/
def specEffectiveObserved (net : Net) (pobs : Tensor3) (ppad : Tensor2)
    (fobs : Tensor3) (b t c : Nat) : ℚ :=
  if t < net.context_length then
    min (pobs.val b (pobs.t - net.context_length + t) c)
        (1 - ppad.val b (pobs.t - net.context_length + t))
  else fobs.val b (t - net.context_length) c

theorem lossWeights_entry (net : Net) (pobs : Tensor3) (ppad : Tensor2)
    (fobs : Tensor3) (hctx1 : 1 ≤ net.context_length)
    (hctx2 : net.context_length ≤ pobs.t) (b t c : Nat) :
    (catT (lastT (tmin pobs (oneMinusPad ppad)) net.context_length) fobs).val b t c
      = specEffectiveObserved net pobs ppad fobs b t c := by
  have hneg : -(net.context_length : Int) < 0 := by omega
  have hstart : pyIdx pobs.t (-(net.context_length : Int))
      = pobs.t - net.context_length := by
    rw [pyIdx, if_pos hneg]
    omega
  have hlen : (lastT (tmin pobs (oneMinusPad ppad)) net.context_length).t
      = net.context_length := by
    show (match (none : Option Int) with
      | none => (tmin pobs (oneMinusPad ppad)).t
      | some j => pyIdx (tmin pobs (oneMinusPad ppad)).t j)
      - pyIdx (tmin pobs (oneMinusPad ppad)).t (-(net.context_length : Int)) = _
    show (tmin pobs (oneMinusPad ppad)).t
      - pyIdx (tmin pobs (oneMinusPad ppad)).t (-(net.context_length : Int)) = _
    show pobs.t - pyIdx pobs.t (-(net.context_length : Int)) = _
    rw [hstart]
    omega
  show (if t < (lastT (tmin pobs (oneMinusPad ppad)) net.context_length).t
    then (lastT (tmin pobs (oneMinusPad ppad)) net.context_length).val b t c
    else fobs.val b (t - (lastT (tmin pobs (oneMinusPad ppad)) net.context_length).t) c)
    = _
  rw [hlen]
  by_cases ht : t < net.context_length
  · rw [if_pos ht, specEffectiveObserved, if_pos ht]
    show (tmin pobs (oneMinusPad ppad)).val b
      (pyIdx pobs.t (-(net.context_length : Int)) + t) c = _
    rw [hstart]
    show min (pobs.val b (pobs.t - net.context_length + t) c)
      ((oneMinusPad ppad).val b (pobs.t - net.context_length + t)
        (if (oneMinusPad ppad).c = 1 then 0 else c)) = _
    rfl
  · rw [if_neg ht, specEffectiveObserved, if_neg ht]

theorem minDimLast_char (x : Tensor3) (b t : Nat) (hc : 1 ≤ x.c) :
    (∀ c < x.c, (minDimLast x).val b t 0 ≤ x.val b t c) ∧
    (∃ c, c < x.c ∧ (minDimLast x).val b t 0 = x.val b t c) := by
  constructor
  · intro c hcc
    exact foldl_min_le_mem _ _ (List.mem_map.mpr ⟨c, List.mem_range.mpr hcc, rfl⟩)
  · rcases foldl_min_cases ((List.range x.c).map (fun c => x.val b t c))
        (x.val b t 0) with h | h
    · exact ⟨0, hc, h⟩
    · rcases List.mem_map.mp h with ⟨c, hcr, hcv⟩
      exact ⟨c, List.mem_range.mp hcr, hcv.symm⟩

/-- C4: the per-timestep weight used by `loss` is the minimum across target
dimensions of the effective observed mask (`min(past_observed_values,
1 - past_is_pad)` on the last `context_length` past steps, then the future
observed mask): it is a lower bound of every dimension's mask entry, it is
attained at some dimension, and hence, for masks with non-negative entries, a
single dimension with entry 0 zeroes the whole timestep's weight. -/
theorem C4_loss_weights_min_over_dims (net : Net) (pobs : Tensor3)
    (ppad : Tensor2) (fobs : Tensor3) (b t : Nat)
    (hctx1 : 1 ≤ net.context_length) (hctx2 : net.context_length ≤ pobs.t)
    (hc : 1 ≤ pobs.c) :
    (∀ c < pobs.c, (lossWeights net pobs ppad fobs).val b t 0
        ≤ specEffectiveObserved net pobs ppad fobs b t c) ∧
    (∃ c, c < pobs.c ∧ (lossWeights net pobs ppad fobs).val b t 0
        = specEffectiveObserved net pobs ppad fobs b t c) ∧
    ((∀ c < pobs.c, 0 ≤ specEffectiveObserved net pobs ppad fobs b t c) →
      (∃ c, c < pobs.c ∧ specEffectiveObserved net pobs ppad fobs b t c = 0) →
      (lossWeights net pobs ppad fobs).val b t 0 = 0) := by
  obtain ⟨h1, h2⟩ := minDimLast_char
    (catT (lastT (tmin pobs (oneMinusPad ppad)) net.context_length) fobs) b t hc
  have hub : ∀ c < pobs.c, (lossWeights net pobs ppad fobs).val b t 0
      ≤ specEffectiveObserved net pobs ppad fobs b t c := by
    intro c hcc
    have := h1 c hcc
    rwa [lossWeights_entry net pobs ppad fobs hctx1 hctx2 b t c] at this
  have hattain : ∃ c, c < pobs.c ∧ (lossWeights net pobs ppad fobs).val b t 0
      = specEffectiveObserved net pobs ppad fobs b t c := by
    obtain ⟨c, hcc, heq⟩ := h2
    refine ⟨c, hcc, ?_⟩
    rw [← lossWeights_entry net pobs ppad fobs hctx1 hctx2 b t c]
    exact heq
  refine ⟨hub, hattain, ?_⟩
  intro hnn hzero
  obtain ⟨c0, hc0, hz0⟩ := hzero
  obtain ⟨c1, hc1, he1⟩ := hattain
  have hle : (lossWeights net pobs ppad fobs).val b t 0 ≤ 0 := by
    have := hub c0 hc0
    rwa [hz0] at this
  have hge : 0 ≤ (lossWeights net pobs ppad fobs).val b t 0 := by
    rw [he1]
    exact hnn c1 hc1
  exact le_antisymm hle hge

/-- Witness for C4 at the concrete network and masks. -/
theorem C4_loss_weights_min_over_dims_witness :
    (1 ≤ wNet.context_length ∧ wNet.context_length ≤ wPast.t ∧ 1 ≤ wPast.c) ∧
    ((∀ c < wPast.c, (lossWeights wNet wPast wPad wFut).val 0 0 0
        ≤ specEffectiveObserved wNet wPast wPad wFut 0 0 c) ∧
    (∃ c, c < wPast.c ∧ (lossWeights wNet wPast wPad wFut).val 0 0 0
        = specEffectiveObserved wNet wPast wPad wFut 0 0 c) ∧
    ((∀ c < wPast.c, 0 ≤ specEffectiveObserved wNet wPast wPad wFut 0 0 c) →
      (∃ c, c < wPast.c ∧ specEffectiveObserved wNet wPast wPad wFut 0 0 c = 0) →
      (lossWeights wNet wPast wPad wFut).val 0 0 0 = 0)) :=
  ⟨⟨by decide, by decide, by decide⟩,
   C4_loss_weights_min_over_dims wNet wPast wPad wFut 0 0 (by decide) (by decide)
     (by decide)⟩

/-! ### sampling_decoder and forward -/

theorem get_lagged_none_of_neg (x : Tensor3) (L : Int) (idx : List Int) (S : Nat)
    (h : ∃ l ∈ idx, l < 0) : get_lagged_subsequences x L idx S = none := by
  have hcond : idx = [] ∨ ¬ (listMax idx + S ≤ L) ∨ ¬ (∀ l ∈ idx, 0 ≤ l) := by
    obtain ⟨l, hl, hneg⟩ := h
    refine Or.inr (Or.inr ?_)
    push_neg
    exact ⟨l, hl, hneg⟩
  rw [get_lagged_subsequences, if_pos hcond]

/-- `tensor.repeat_interleave(repeats=k, dim=0)`. -/
def repeatInterleave0 (k : Nat) (x : Tensor3) : Tensor3 :=
  ⟨x.n * k, x.t, x.c, fun b t c => x.val (b / k) t c⟩

/-- `repeat_interleave` applied to each entry of the scale-parameter dict
(lines 603-617). -/
def repeatScaleParams (k : Nat) : ScaleParams → ScaleParams
  | .scaleOnly s => .scaleOnly (repeatInterleave0 k s)
  | .meanStd m s => .meanStd (repeatInterleave0 k m) (repeatInterleave0 k s)

/-- `repeat_interleave` on the integer dimension indicator. -/
def repeatTdi (k : Nat) (x : TensorI2) : TensorI2 :=
  ⟨x.n * k, x.c, fun b c => x.val (b / k) c⟩

/-- The per-step decoding loop of `sampling_decoder` (lines 631-658): at step
`k` extract a one-step lagged subsequence of the running history using the
shifted lags (`sequence_length = history_length + k`), unroll one encoder step
from the current state, project, draw a sample from the diffusion head, and
append it to the running history.  `steps` counts the remaining iterations;
the accumulator collects per-step samples in reverse. -/
def samplingLoop (env : NetEnv) (net : Net) (rep_scale : ScaleParams)
    (scaleAttr : Option ScaleParams) (rep_tf : Tensor3) (rep_tdi : TensorI2) :
    Nat → Nat → Tensor3 → Nat → List Tensor3 → Option (List Tensor3)
  | 0, _, _, _, acc => some acc.reverse
  | steps + 1, k, past, st, acc =>
    match get_lagged_subsequences past (net.history_length + (k : Int))
        net.shifted_lags 1 with
    | none => none
    | some lags =>
      match unroll env net lags rep_scale
          (tslice rep_tf (k : Int) (some ((k : Int) + 1))) rep_tdi 1 (some st) with
      | none => none
      | some r =>
        let new_samples := env.sample scaleAttr (env.projDistArgs r.1)
        samplingLoop env net rep_scale scaleAttr rep_tf rep_tdi steps (k + 1)
          (catT past new_samples) r.2.1 (new_samples :: acc)

/-- `samples.reshape((-1, num_parallel_samples, prediction_length,
target_dim))`: buffer reinterpretation (shapes agree at the call site). -/
def reshapeSamples (net : Net) (x : Tensor3) : Tensor4 :=
  ⟨x.n / net.num_parallel_samples, net.num_parallel_samples,
   net.prediction_length, net.target_dim,
   fun b s t c => x.val (b * net.num_parallel_samples + s) t c⟩

/-- Embedding of `PersonnalizedTimeGrad.sampling_decoder` (lines 567-671):
repeat all inputs `num_parallel_samples` times along the batch axis (the
recurrent state through the cell-type dependent repeat), write the repeated
scale into the diffusion head when scaling is on, run the decoding loop for
`prediction_length` steps, concatenate the collected samples along time
(`torch.cat` raises on an empty list) and reshape. -/
def sampling_decoder (env : NetEnv) (net : Net) (past_target_cdf : Tensor3)
    (tdi : TensorI2) (time_feat : Tensor3) (begin_states : Nat)
    (scale_params : ScaleParams) : Option Tensor4 :=
  let rep_scale := repeatScaleParams net.num_parallel_samples scale_params
  let scaleAttr := if net.scaling then some rep_scale else none
  match samplingLoop env net rep_scale scaleAttr
      (repeatInterleave0 net.num_parallel_samples time_feat)
      (repeatTdi net.num_parallel_samples tdi) net.prediction_length 0
      (repeatInterleave0 net.num_parallel_samples past_target_cdf)
      (env.repeatState net.cell_type net.num_parallel_samples begin_states) [] with
  | none => none
  | some [] => none
  | some (s :: ss) => some (reshapeSamples net (ss.foldl catT s))

/-- Embedding of `PersonnalizedTimeGrad.forward` (lines 673-737): mark padded
steps unobserved, encode the past-only window (futures passed as `None`), and
run the sampling decoder on the resulting state and scale parameters with the
future time features; the two trailing arguments of the Python signature are
accepted and unused. -/
def forward (env : NetEnv) (net : Net) (tdi : TensorI2)
    (past_target_cdf past_observed_values : Tensor3) (past_is_pad : Tensor2)
    (future_time_feat past_time_feat : Tensor3)
    (_future_target_cdf _future_observed_values : Tensor3) : Option Tensor4 :=
  match unroll_encoder env net past_time_feat past_target_cdf
      (tmin past_observed_values (oneMinusPad past_is_pad)) past_is_pad
      none none tdi with
  | none => none
  | some r =>
    sampling_decoder env net past_target_cdf tdi future_time_feat r.2.1 r.2.2.1

/-! ### Claim C8: the div_by_std flag is stored but never read -/

theorem unroll_div_by_std (env : NetEnv) (nps ctx pred td : Nat) (sc : Bool)
    (sct : String) (sk : ScalerKind) (b1 b2 : Bool) (ls sl : List Int)
    (hist : Int) (ed : Nat) (ct : String) :
    ∀ (lags : Tensor4) (sp : ScaleParams) (tf : Tensor3) (tdi : TensorI2)
      (L : Nat) (st : Option Nat),
      unroll env ⟨nps, ctx, pred, td, sc, sct, sk, b1, ls, sl, hist, ed, ct⟩
          lags sp tf tdi L st
        = unroll env ⟨nps, ctx, pred, td, sc, sct, sk, b2, ls, sl, hist, ed, ct⟩
          lags sp tf tdi L st :=
  fun _ _ _ _ _ _ => rfl

theorem samplingLoop_div_by_std (env : NetEnv) (nps ctx pred td : Nat) (sc : Bool)
    (sct : String) (sk : ScalerKind) (b1 b2 : Bool) (ls sl : List Int)
    (hist : Int) (ed : Nat) (ct : String) (rs : ScaleParams)
    (sa : Option ScaleParams) (tf : Tensor3) (tdi : TensorI2) :
    ∀ (steps k : Nat) (past : Tensor3) (st : Nat) (acc : List Tensor3),
      samplingLoop env ⟨nps, ctx, pred, td, sc, sct, sk, b1, ls, sl, hist, ed, ct⟩
          rs sa tf tdi steps k past st acc
        = samplingLoop env ⟨nps, ctx, pred, td, sc, sct, sk, b2, ls, sl, hist, ed, ct⟩
          rs sa tf tdi steps k past st acc := by
  intro steps
  induction steps with
  | zero => intro k past st acc; rfl
  | succ n ih =>
    intro k past st acc
    simp only [samplingLoop]
    simp only [unroll_div_by_std env nps ctx pred td sc sct sk b1 b2 ls sl hist ed ct]
    cases hg : get_lagged_subsequences past (hist + (k : Int)) sl 1 with
    | none => rfl
    | some lags =>
      dsimp only
      cases hu : unroll env ⟨nps, ctx, pred, td, sc, sct, sk, b2, ls, sl, hist, ed, ct⟩
          lags rs (tslice tf (k : Int) (some ((k : Int) + 1))) tdi 1 (some st) with
      | none => rfl
      | some r =>
        dsimp only
        exact ih (k + 1) (catT past (env.sample sa (env.projDistArgs r.1))) r.2.1
          (env.sample sa (env.projDistArgs r.1) :: acc)

theorem sampling_decoder_div_by_std (env : NetEnv) (nps ctx pred td : Nat)
    (sc : Bool) (sct : String) (sk : ScalerKind) (b1 b2 : Bool) (ls sl : List Int)
    (hist : Int) (ed : Nat) (ct : String) :
    ∀ (p : Tensor3) (tdi : TensorI2) (tf : Tensor3) (st : Nat) (sp : ScaleParams),
      sampling_decoder env ⟨nps, ctx, pred, td, sc, sct, sk, b1, ls, sl, hist, ed, ct⟩
          p tdi tf st sp
        = sampling_decoder env ⟨nps, ctx, pred, td, sc, sct, sk, b2, ls, sl, hist, ed, ct⟩
          p tdi tf st sp := by
  intro p tdi tf st sp
  simp only [sampling_decoder]
  rw [samplingLoop_div_by_std env nps ctx pred td sc sct sk b1 b2 ls sl hist ed ct]
  exact rfl

/-- C8: the `div_by_std` configuration flag has no effect on any computation:
two networks identical except for `div_by_std` (and identical environment, so
identical randomness) produce identical `unroll_encoder`, `loss` and `forward`
results, and construction merely stores the flag: `initNet` on a configuration
with the flag replaced equals the original construction with the flag replaced
in the resulting network state. -/
theorem C8_div_by_std_unused (env : NetEnv) (nps ctx pred td : Nat) (sc : Bool)
    (sct : String) (sk : ScalerKind) (b1 b2 : Bool) (ls sl : List Int)
    (hist : Int) (ed : Nat) (ct : String)
    (ptf pcdf pobs : Tensor3) (ppad : Tensor2)
    (oftf ofcdf : Option Tensor3) (tdi : TensorI2)
    (ftf fcdf fobs : Tensor3) (cfg : Config) (b : Bool) :
    unroll_encoder env ⟨nps, ctx, pred, td, sc, sct, sk, b1, ls, sl, hist, ed, ct⟩
        ptf pcdf pobs ppad oftf ofcdf tdi
      = unroll_encoder env ⟨nps, ctx, pred, td, sc, sct, sk, b2, ls, sl, hist, ed, ct⟩
        ptf pcdf pobs ppad oftf ofcdf tdi
    ∧ loss env ⟨nps, ctx, pred, td, sc, sct, sk, b1, ls, sl, hist, ed, ct⟩
        tdi pcdf pobs ppad ftf ptf fcdf fobs
      = loss env ⟨nps, ctx, pred, td, sc, sct, sk, b2, ls, sl, hist, ed, ct⟩
        tdi pcdf pobs ppad ftf ptf fcdf fobs
    ∧ forward env ⟨nps, ctx, pred, td, sc, sct, sk, b1, ls, sl, hist, ed, ct⟩
        tdi pcdf pobs ppad ftf ptf fcdf fobs
      = forward env ⟨nps, ctx, pred, td, sc, sct, sk, b2, ls, sl, hist, ed, ct⟩
        tdi pcdf pobs ppad ftf ptf fcdf fobs
    ∧ initNet {cfg with div_by_std := b}
      = (initNet cfg).map (fun n => {n with div_by_std := b}) := by
  refine ⟨rfl, rfl, ?_, ?_⟩
  · simp only [forward]
    have hue : unroll_encoder env
        ⟨nps, ctx, pred, td, sc, sct, sk, b1, ls, sl, hist, ed, ct⟩ ptf pcdf
        (tmin pobs (oneMinusPad ppad)) ppad none none tdi
      = unroll_encoder env
        ⟨nps, ctx, pred, td, sc, sct, sk, b2, ls, sl, hist, ed, ct⟩ ptf pcdf
        (tmin pobs (oneMinusPad ppad)) ppad none none tdi := rfl
    rw [hue]
    cases unroll_encoder env
        ⟨nps, ctx, pred, td, sc, sct, sk, b2, ls, sl, hist, ed, ct⟩ ptf pcdf
        (tmin pobs (oneMinusPad ppad)) ppad none none tdi with
    | none => rfl
    | some r =>
      exact sampling_decoder_div_by_std env nps ctx pred td sc sct sk b1 b2 ls sl
        hist ed ct pcdf tdi ftf r.2.1 r.2.2.1
  · rcases cfg with ⟨c1, c2, c3, c4, c5, c6, c7, c8, c9, c10, c11, c12, c13, c14, c15⟩
    by_cases he : c13 = ([] : List Int)
    · simp [initNet, he]
    · cases c5 with
      | false =>
        by_cases hct : c15 = "LSTM" ∨ c15 = "GRU" <;> simp [initNet, he, hct]
      | true =>
        by_cases h1 : c6 = "mean" <;> by_cases h2 : c6 = "nops" <;>
          by_cases h3 : c6 = "centered_mean" <;> by_cases h4 : c6 = "mean_std" <;>
          by_cases hct : c15 = "LSTM" ∨ c15 = "GRU" <;>
          simp [initNet, he, h1, h2, h3, h4, hct]

/-! ### Claim C10: shifted lags and the lag-0 asymmetry -/

/-- C10: for a network built with `0 ∈ lags_seq` (mean scaling, LSTM cell,
non-negative lags, positive context and prediction lengths): construction
succeeds, `shifted_lags` is `[l - 1 for l in lags_seq]`, `loss` succeeds on
well-shaped inputs (the training path accepts lag 0), but `sampling_decoder`
fails at the first decoding step on the non-negativity assertion of
`get_lagged_subsequences` (shifted lag `-1`), and therefore `forward` fails
for every input — sampling succeeds only when every lag is at least 1. -/
theorem C10_sampling_requires_positive_lags (cfg : Config)
    (hs : cfg.scaling = true) (hst : cfg.scaler_type = "mean")
    (hcell : cfg.cell_type = "LSTM")
    (hnn : ∀ l ∈ cfg.lags_seq, 0 ≤ l) (h0 : (0 : Int) ∈ cfg.lags_seq)
    (hctx : 1 ≤ cfg.context_length) (hpred : 1 ≤ cfg.prediction_length) :
    (initNet cfg).isSome
    ∧ ∀ net, initNet cfg = some net →
        net.shifted_lags = cfg.lags_seq.map (fun l => l - 1)
        ∧ (∀ (env : NetEnv) (tdi : TensorI2) (pcdf pobs : Tensor3)
            (ppad : Tensor2) (ftf ptf fcdf fobs : Tensor3),
            (pcdf.t : Int) = net.history_length →
            fcdf.t = net.prediction_length →
            (loss env net tdi pcdf pobs ppad ftf ptf fcdf fobs).isSome)
        ∧ (∀ (env : NetEnv) (p : Tensor3) (tdi : TensorI2) (tf : Tensor3)
            (st : Nat) (sp : ScaleParams),
            sampling_decoder env net p tdi tf st sp = none)
        ∧ (∀ (env : NetEnv) (tdi : TensorI2) (pcdf pobs : Tensor3)
            (ppad : Tensor2) (ftf ptf fcdf fobs : Tensor3),
            forward env net tdi pcdf pobs ppad ftf ptf fcdf fobs = none) := by
  have hne : cfg.lags_seq ≠ [] := List.ne_nil_of_mem h0
  have hval : initNet cfg = some ⟨cfg.num_parallel_samples, cfg.context_length,
      cfg.prediction_length, cfg.target_dim, cfg.scaling, cfg.scaler_type,
      .meanSc, cfg.div_by_std,
      List.insertionSort (fun a b => a ≤ b) cfg.lags_seq,
      cfg.lags_seq.map (fun l => l - 1),
      cfg.context_length + listMax cfg.lags_seq,
      cfg.embedding_dimension, cfg.cell_type⟩ := by
    simp [initNet, hne, hs, hst, hcell]
  refine ⟨by rw [hval]; rfl, ?_⟩
  intro net hn
  rw [hval] at hn
  injection hn with hnet
  subst hnet
  have hperm : (List.insertionSort (fun a b : Int => a ≤ b) cfg.lags_seq).Perm
      cfg.lags_seq := List.perm_insertionSort _ _
  have hneL : List.insertionSort (fun a b : Int => a ≤ b) cfg.lags_seq ≠ [] := by
    intro hE
    exact hne (List.eq_nil_of_length_eq_zero (by rw [← hperm.length_eq, hE]; rfl))
  have hnnL : ∀ l ∈ List.insertionSort (fun a b : Int => a ≤ b) cfg.lags_seq,
      0 ≤ l := fun l hl => hnn l (hperm.mem_iff.mp hl)
  have hmaxL : listMax (List.insertionSort (fun a b : Int => a ≤ b) cfg.lags_seq)
      = listMax cfg.lags_seq := listMax_perm hperm hneL
  have hm1 : (-1 : Int) ∈ cfg.lags_seq.map (fun l => l - 1) :=
    List.mem_map.mpr ⟨0, h0, by norm_num⟩
  have hsamp : ∀ (env : NetEnv) (p : Tensor3) (tdi : TensorI2) (tf : Tensor3)
      (st : Nat) (sp : ScaleParams),
      sampling_decoder env ⟨cfg.num_parallel_samples, cfg.context_length,
        cfg.prediction_length, cfg.target_dim, cfg.scaling, cfg.scaler_type,
        .meanSc, cfg.div_by_std,
        List.insertionSort (fun a b => a ≤ b) cfg.lags_seq,
        cfg.lags_seq.map (fun l => l - 1),
        cfg.context_length + listMax cfg.lags_seq,
        cfg.embedding_dimension, cfg.cell_type⟩ p tdi tf st sp = none := by
    intro env p tdi tf st sp
    obtain ⟨m, hm⟩ : ∃ m, cfg.prediction_length = m + 1 :=
      ⟨cfg.prediction_length - 1, by omega⟩
    simp only [sampling_decoder, hm]
    simp only [samplingLoop]
    rw [get_lagged_none_of_neg _ _ _ _ ⟨-1, hm1, by norm_num⟩]
  refine ⟨rfl, ?_, hsamp, ?_⟩
  · intro env tdi pcdf pobs ppad ftf ptf fcdf fobs hpt hft
    have hlag := encoder_lag_isSome ⟨cfg.num_parallel_samples, cfg.context_length,
        cfg.prediction_length, cfg.target_dim, cfg.scaling, cfg.scaler_type,
        .meanSc, cfg.div_by_std,
        List.insertionSort (fun a b => a ≤ b) cfg.lags_seq,
        cfg.lags_seq.map (fun l => l - 1),
        cfg.context_length + listMax cfg.lags_seq,
        cfg.embedding_dimension, cfg.cell_type⟩ pcdf (some ftf) (some fcdf)
      hneL hnnL hctx (by show (cfg.context_length : Int) + _ = _; rw [hmaxL]) hpt
      (fun x hx => by injection hx with h; rw [← h]; exact hft)
    have hchar := unroll_encoder_scale_char env _ ptf pcdf pobs ppad (some ftf)
      (some fcdf) tdi hlag
    have hsc : encoderScaleOpt env ⟨cfg.num_parallel_samples, cfg.context_length,
        cfg.prediction_length, cfg.target_dim, cfg.scaling, cfg.scaler_type,
        .meanSc, cfg.div_by_std,
        List.insertionSort (fun a b => a ≤ b) cfg.lags_seq,
        cfg.lags_seq.map (fun l => l - 1),
        cfg.context_length + listMax cfg.lags_seq,
        cfg.embedding_dimension, cfg.cell_type⟩ pcdf pobs ppad
        = some (.scaleOnly (meanScalerScale (lastT pcdf cfg.context_length)
            (lastT (tmin pobs (oneMinusPad ppad)) cfg.context_length))) := by
      simp [encoderScaleOpt, runScaler, hst]
    rw [hsc] at hchar
    cases hue : unroll_encoder env ⟨cfg.num_parallel_samples, cfg.context_length,
        cfg.prediction_length, cfg.target_dim, cfg.scaling, cfg.scaler_type,
        .meanSc, cfg.div_by_std,
        List.insertionSort (fun a b => a ≤ b) cfg.lags_seq,
        cfg.lags_seq.map (fun l => l - 1),
        cfg.context_length + listMax cfg.lags_seq,
        cfg.embedding_dimension, cfg.cell_type⟩ ptf pcdf pobs ppad (some ftf)
        (some fcdf) tdi with
    | none => rw [hue] at hchar; exact absurd hchar (by simp)
    | some r => simp only [loss]; rw [hue]; rfl
  · intro env tdi pcdf pobs ppad ftf ptf fcdf fobs
    simp only [forward]
    cases unroll_encoder env ⟨cfg.num_parallel_samples, cfg.context_length,
        cfg.prediction_length, cfg.target_dim, cfg.scaling, cfg.scaler_type,
        .meanSc, cfg.div_by_std,
        List.insertionSort (fun a b => a ≤ b) cfg.lags_seq,
        cfg.lags_seq.map (fun l => l - 1),
        cfg.context_length + listMax cfg.lags_seq,
        cfg.embedding_dimension, cfg.cell_type⟩ ptf pcdf
        (tmin pobs (oneMinusPad ppad)) ppad none none tdi with
    | none => rfl
    | some r => exact hsamp env pcdf tdi ftf r.2.1 r.2.2.1

/-- Concrete configuration with lag 0 present (lags `[0, 1]`). -/
def cfg10 : Config :=
  ⟨1, 1, 1, 1, true, "mean", false, 0, 0, true, true, true, [0, 1], 0, "LSTM"⟩

/-- Witness for C10 at the concrete configuration with lags `[0, 1]`. -/
theorem C10_sampling_requires_positive_lags_witness :
    (cfg10.scaling = true ∧ cfg10.scaler_type = "mean" ∧
      cfg10.cell_type = "LSTM" ∧ (∀ l ∈ cfg10.lags_seq, 0 ≤ l) ∧
      (0 : Int) ∈ cfg10.lags_seq ∧ 1 ≤ cfg10.context_length ∧
      1 ≤ cfg10.prediction_length) ∧
    ((initNet cfg10).isSome
    ∧ ∀ net, initNet cfg10 = some net →
        net.shifted_lags = cfg10.lags_seq.map (fun l => l - 1)
        ∧ (∀ (env : NetEnv) (tdi : TensorI2) (pcdf pobs : Tensor3)
            (ppad : Tensor2) (ftf ptf fcdf fobs : Tensor3),
            (pcdf.t : Int) = net.history_length →
            fcdf.t = net.prediction_length →
            (loss env net tdi pcdf pobs ppad ftf ptf fcdf fobs).isSome)
        ∧ (∀ (env : NetEnv) (p : Tensor3) (tdi : TensorI2) (tf : Tensor3)
            (st : Nat) (sp : ScaleParams),
            sampling_decoder env net p tdi tf st sp = none)
        ∧ (∀ (env : NetEnv) (tdi : TensorI2) (pcdf pobs : Tensor3)
            (ppad : Tensor2) (ftf ptf fcdf fobs : Tensor3),
            forward env net tdi pcdf pobs ppad ftf ptf fcdf fobs = none)) :=
  ⟨⟨rfl, rfl, rfl, by decide, by decide, by decide, by decide⟩,
   C10_sampling_requires_positive_lags cfg10 rfl rfl rfl (by decide) (by decide)
     (by decide) (by decide)⟩

/-! ### The PyTorch-Lightning estimator: train_model (claims C5, C7, C9) -/

/-- Callbacks visible to `train_model`: its own `ModelCheckpoint` (identified
by the monitored metric, mode and verbosity it was constructed with, lines
180-182) or a user-supplied callback from `trainer_kwargs` (opaque id). -/
inductive Callback where
  | modelCheckpoint (monitor : String) (mode : String) (verbose : Bool)
  | userCb (id : Nat)
deriving DecidableEq

/-- The `trainer_kwargs` keys `train_model` pops (lines 183, 192, 199);
remaining keys pass through to the trainer and play no further role. -/
structure TrainerKwargs where
  callbacks : Option (List Nat)
  validation_only : Option Bool
  logger : Option (Option Nat)
deriving DecidableEq

/-- A network is its weight state (opaque). -/
structure Network where
  weights : Nat
deriving DecidableEq

/-- The trainer handle built by `pl.Trainer(...)` (lines 195-202): the
callback list and logger it was constructed with. -/
structure TrainerHandle where
  callbacks : List Callback
  logger : Option Nat
deriving DecidableEq

/-- `TrainOutput` (lines 22-27). -/
structure TrainOutput where
  transformation : Nat
  trained_net : Network
  trainer : TrainerHandle
  predictor : Nat
deriving DecidableEq

/-- Calls `train_model` makes into the external trainer. -/
inductive TrainerEvent where
  | fitCalled
  | validateCalled
deriving DecidableEq

/-- Modelled from the spec: the external Lightning trainer and the abstract
estimator capabilities.  `fitWeights` is the in-place weight update
`trainer.fit` performs; `fitBestPath` is the checkpoint path `fit` records
into a monitored `ModelCheckpoint` callback that was passed to the trainer
(`best_model_path` stays at its construction default `""` for a callback the
trainer never received, and `trainer.validate` does not checkpoint);
`loadedWeights` models `load_from_checkpoint`; `transformationId`,
`initialWeights` and `predictorOf` stand for `create_transformation`,
`create_lightning_module` and `create_predictor` of the concrete subclass. -/
structure TrainEnv where
  fitBestPath : String
  fitWeights : Nat → Nat
  loadedWeights : String → Nat
  transformationId : Nat
  initialWeights : Nat
  predictorOf : Nat → Nat → Nat

/-- Result of one `train_model` call: the returned `TrainOutput`, the trace of
trainer calls, and the final state of the orchestrator checkpoint callback. -/
structure TrainModelResult where
  output : TrainOutput
  events : List TrainerEvent
  checkpointMonitor : String
  checkpointBestPath : String

/-- Embedding of `PyTorchLightningEstimator.train_model` (lines 134-236):
build the transformation and network, optionally load weights from
`from_predictor` (line 177), choose the monitored metric (`train_loss`
without validation data, else `val_loss`, line 179), construct a fresh
`ModelCheckpoint` (lines 180-182), pop user callbacks and prepend the
checkpoint to them only when there is no validation data (lines 185-190), pop
`validation_only` (line 192), build the trainer (lines 195-202), then either
validate once returning the training network as best (lines 204-211), or fit
and reload from `best_model_path` when one was recorded (lines 213-229). -/
def train_model (env : TrainEnv) (tk : TrainerKwargs)
    (validation_data : Option Nat) (from_predictor : Option Network) :
    TrainModelResult :=
  let transformation := env.transformationId
  let training_network : Network :=
    match from_predictor with
    | some p => ⟨p.weights⟩
    | none => ⟨env.initialWeights⟩
  let monitor := if validation_data = none then "train_loss" else "val_loss"
  let checkpoint := Callback.modelCheckpoint monitor "min" true
  let custom_callbacks := (tk.callbacks.getD []).map Callback.userCb
  let all_callbacks :=
    if validation_data = none then checkpoint :: custom_callbacks
    else custom_callbacks
  let validation_only := tk.validation_only.getD false
  let trainer : TrainerHandle := ⟨all_callbacks, tk.logger.getD none⟩
  if validation_only then
    { output := ⟨transformation, training_network, trainer,
        env.predictorOf transformation training_network.weights⟩,
      events := [.validateCalled],
      checkpointMonitor := monitor,
      checkpointBestPath := "" }
  else
    let fitted : Network := ⟨env.fitWeights training_network.weights⟩
    let bestPath := if checkpoint ∈ trainer.callbacks then env.fitBestPath else ""
    let best_model : Network :=
      if bestPath ≠ "" then ⟨env.loadedWeights bestPath⟩ else fitted
    { output := ⟨transformation, best_model, trainer,
        env.predictorOf transformation best_model.weights⟩,
      events := [.fitCalled],
      checkpointMonitor := monitor,
      checkpointBestPath := bestPath }

theorem checkpoint_not_user (m md : String) (vb : Bool) (l : List Nat) :
    Callback.modelCheckpoint m md vb ∉ l.map Callback.userCb := by
  intro h
  rcases List.mem_map.mp h with ⟨a, _, ha⟩
  exact Callback.noConfusion ha

/-- C5: with `validation_data = None` the monitored metric is `train_loss`
and the trainer's callback list is the orchestrator's `ModelCheckpoint`
prepended to the user callbacks; with validation data present the metric is
`val_loss` and the trainer receives the user callbacks only. -/
theorem C5_checkpoint_policy (env : TrainEnv) (cbs : Option (List Nat))
    (vo : Option Bool) (lg : Option (Option Nat)) (fp : Option Network)
    (v : Nat) :
    ((train_model env ⟨cbs, vo, lg⟩ none fp).checkpointMonitor = "train_loss"
      ∧ (train_model env ⟨cbs, vo, lg⟩ none fp).output.trainer.callbacks
        = Callback.modelCheckpoint "train_loss" "min" true
            :: (cbs.getD []).map Callback.userCb)
    ∧ ((train_model env ⟨cbs, vo, lg⟩ (some v) fp).checkpointMonitor = "val_loss"
      ∧ (train_model env ⟨cbs, vo, lg⟩ (some v) fp).output.trainer.callbacks
        = (cbs.getD []).map Callback.userCb) := by
  rcases vo with _ | b
  · refine ⟨⟨?_, ?_⟩, ?_, ?_⟩ <;> simp [train_model]
  · rcases b with _ | _ <;> refine ⟨⟨?_, ?_⟩, ?_, ?_⟩ <;> simp [train_model]

/-- C7: with `validation_only = True` in `trainer_kwargs`, `train_model`
never calls `trainer.fit`: the trainer-call trace is exactly one validation
call, and the returned best network is the training network itself with its
untrained (or predictor-loaded) weights, unmodified by the orchestrator. -/
theorem C7_validation_only_skips_fit (env : TrainEnv) (cbs : Option (List Nat))
    (lg : Option (Option Nat)) (vd : Option Nat) (fp : Option Network) :
    (train_model env ⟨cbs, some true, lg⟩ vd fp).events
      = [TrainerEvent.validateCalled]
    ∧ TrainerEvent.fitCalled ∉ (train_model env ⟨cbs, some true, lg⟩ vd fp).events
    ∧ (train_model env ⟨cbs, some true, lg⟩ vd fp).output.trained_net
      = (match fp with
         | some p => (⟨p.weights⟩ : Network)
         | none => ⟨env.initialWeights⟩) := by
  have h : (train_model env ⟨cbs, some true, lg⟩ vd fp).events
      = [TrainerEvent.validateCalled] := rfl
  refine ⟨h, ?_, rfl⟩
  rw [h]
  decide

/-- C9: with validation data present and `validation_only` absent or false,
the `ModelCheckpoint` that `train_model` builds is not among the trainer's
callbacks, so its `best_model_path` stays `""` and the reload branch is
unreachable: the returned network is the in-memory network `trainer.fit` ran
on, never one loaded from a checkpoint file. -/
theorem C9_no_reload_with_validation_data (env : TrainEnv)
    (cbs : Option (List Nat)) (lg : Option (Option Nat)) (v : Nat)
    (fp : Option Network) :
    ((train_model env ⟨cbs, none, lg⟩ (some v) fp).checkpointBestPath = ""
      ∧ (train_model env ⟨cbs, none, lg⟩ (some v) fp).output.trained_net
        = ⟨env.fitWeights (match fp with
            | some p => (⟨p.weights⟩ : Network)
            | none => ⟨env.initialWeights⟩).weights⟩
      ∧ (train_model env ⟨cbs, none, lg⟩ (some v) fp).events
        = [TrainerEvent.fitCalled])
    ∧ ((train_model env ⟨cbs, some false, lg⟩ (some v) fp).checkpointBestPath = ""
      ∧ (train_model env ⟨cbs, some false, lg⟩ (some v) fp).output.trained_net
        = ⟨env.fitWeights (match fp with
            | some p => (⟨p.weights⟩ : Network)
            | none => ⟨env.initialWeights⟩).weights⟩
      ∧ (train_model env ⟨cbs, some false, lg⟩ (some v) fp).events
        = [TrainerEvent.fitCalled]) := by
  constructor <;>
    refine ⟨?_, ?_, rfl⟩ <;>
    simp [train_model, checkpoint_not_user]
